import Mathlib

/-!
Shallow embedding of the `bevy_optix` camera / anchor / shake / z-order
systems (src/camera.rs, src/anchor.rs, src/shake.rs, src/zorder.rs).

Conventions of the embedding:
* `f32` scalars are modelled as exact rationals (`ℚ`); IEEE rounding is out
  of scope, matching the spec's own "within floating tolerance" phrasing.
* Bevy entities are identifiers (`Nat`); ECS queries become explicit lists
  or lookup functions passed to each system.
* Deferred `Commands` in a system are applied at the end of that system,
  which is when the next chained system can observe them.
* The library functions `f32::powf` and `noise::fbm_simplex_2d` are taken
  as parameters of the shake system (`fpow`, `noise2`): the code treats
  both as opaque numeric oracles and no claim depends on their values,
  only on the sign of `fpow` at the points it is called.
* Rust field name `end` is a Lean keyword and is rendered `endp`.
-/

namespace BevyOptix

abbrev EntityId := Nat

/-- Planar vector, models `bevy::math::Vec2`. -/
structure Vec2Q where
  x : ℚ
  y : ℚ
deriving DecidableEq, Repr

/-- Spatial vector, models `bevy::math::Vec3` (a `Transform` translation). -/
structure Vec3Q where
  x : ℚ
  y : ℚ
  z : ℚ
deriving DecidableEq, Repr

/-- `Vec3::xy()`. -/
def Vec3Q.xy (v : Vec3Q) : Vec2Q := ⟨v.x, v.y⟩

/-- `Vec2::extend(z)`. -/
def Vec2Q.extend (v : Vec2Q) (z : ℚ) : Vec3Q := ⟨v.x, v.y, z⟩

/-- `Vec2::distance_squared`. -/
def Vec2Q.distance_squared (a b : Vec2Q) : ℚ :=
  (b.x - a.x) ^ 2 + (b.y - a.y) ^ 2

/-- Componentwise addition (`Vec3 + Vec3`). -/
def Vec3Q.add (a b : Vec3Q) : Vec3Q := ⟨a.x + b.x, a.y + b.y, a.z + b.z⟩

/-- `Vec3::lerp(b, s) = a + (b - a) * s`, componentwise. -/
def Vec3Q.lerp (a b : Vec3Q) (s : ℚ) : Vec3Q :=
  ⟨a.x + (b.x - a.x) * s, a.y + (b.y - a.y) * s, a.z + (b.z - a.z) * s⟩

def Vec2Q.zero : Vec2Q := ⟨0, 0⟩

/-- `bevy::time::Timer` in `TimerMode::Once`: `elapsed` accumulates ticked
time, clamped at `duration`. Times are in seconds. -/
structure Timer where
  elapsed : ℚ
  duration : ℚ
deriving DecidableEq, Repr

/-- `Timer::new(duration, TimerMode::Once)`. -/
def Timer.new (d : ℚ) : Timer := ⟨0, d⟩

/-- `Timer::tick(delta)`: advance `elapsed`, clamped at `duration`. -/
def Timer.tick (t : Timer) (delta : ℚ) : Timer :=
  { t with elapsed := min (t.elapsed + delta) t.duration }

/-- `Timer::finished()`: `elapsed ≥ duration`. -/
def Timer.finished (t : Timer) : Bool := decide (t.duration ≤ t.elapsed)

/-- `Timer::fraction()`: `elapsed / duration`. The `duration = 0` branch is
unreachable through `camera_move_to` (a zero-duration timer is finished as
soon as it is ticked). -/
def Timer.fraction (t : Timer) : ℚ :=
  if t.duration = 0 then 1 else t.elapsed / t.duration

/-- The two members of `bevy::math::curve::EaseFunction` this crate uses. -/
inductive EaseFunction where
  | linear
  | quadraticOut
deriving DecidableEq, Repr

/-- The unit-interval easing function backing each `EaseFunction`. -/
def EaseFunction.eval : EaseFunction → ℚ → ℚ
  | .linear, t => t
  | .quadraticOut, t => 1 - (1 - t) ^ 2

/-- `EasingCurve::new(start, endp, easing).sample(t)`: defined (`some`) on
the unit domain, eased linear interpolation between the endpoints. -/
def easingSample (start endp : Vec3Q) (e : EaseFunction) (t : ℚ) : Option Vec3Q :=
  if 0 ≤ t ∧ t ≤ 1 then some (start.lerp endp (e.eval t)) else none

/-- `camera.rs` `enum Domain`: the two kinds of move destination. -/
inductive Domain where
  | entity (start : Vec3Q) (target : EntityId)
  | positions (start : Vec3Q) (endp : Vec3Q)
deriving DecidableEq, Repr

/-- `Domain::target()`. -/
def Domain.target : Domain → Option EntityId
  | .entity _ e => some e
  | .positions _ _ => none

/-- Discriminator: is this a move-to-entity domain? -/
def Domain.isEntity : Domain → Bool
  | .entity _ _ => true
  | .positions _ _ => false

/-- `camera.rs` `struct MoveTo`. -/
structure MoveTo where
  timer : Timer
  easing : EaseFunction
  domain : Domain
deriving DecidableEq, Repr

/-- `Duration::from_millis(ms)` viewed in seconds. -/
def millisToSecs (ms : ℕ) : ℚ := (ms : ℚ) / 1000

/-- Rust `as u64` applied to a (non-NaN) float: truncate toward zero,
saturating at 0 from below. -/
def f32CastU64 (q : ℚ) : ℕ := ⌊q⌋.toNat

/-- `MoveTo::new(duration, start, end, easing)` (point destination). -/
def MoveTo.new (durationMs : ℕ) (start endp : Vec3Q) (e : EaseFunction) : MoveTo :=
  ⟨Timer.new (millisToSecs durationMs), e, .positions start endp⟩

/-- `MoveTo::new_with_entity(duration, start, target, easing)`. -/
def MoveTo.new_with_entity (durationMs : ℕ) (start : Vec3Q) (target : EntityId)
    (e : EaseFunction) : MoveTo :=
  ⟨Timer.new (millisToSecs durationMs), e, .entity start target⟩

/-- `MoveTo::tick`. -/
def MoveTo.tick (m : MoveTo) (delta : ℚ) : MoveTo :=
  { m with timer := m.timer.tick delta }

/-- `MoveTo::complete`. -/
def MoveTo.complete (m : MoveTo) : Bool := m.timer.finished

/-- The `MainCamera` entity's components that the camera pipeline touches:
its `Transform` translation and the optional `MoveTo`, `Binded`,
`DynamicallyAnchored` components. -/
structure Camera where
  translation : Vec3Q
  move_to : Option MoveTo
  binded : Option EntityId
  dyn_anchored : Option EntityId
deriving DecidableEq, Repr

/-- Inserting a `MoveTo` fires the `on_insert_moveto` component hook, which
removes any `Binded` component. -/
def Camera.insertMoveTo (c : Camera) (m : MoveTo) : Camera :=
  { c with move_to := some m, binded := none }

/-- A non-camera entity as seen by the camera systems: its `Transform`
translation and optional `CameraOffset`. -/
structure Target where
  translation : Vec3Q
  camera_offset : Option Vec2Q
deriving DecidableEq, Repr

/-- `t.translation + offset.map(|o| o.0).unwrap_or_default().extend(0.)`. -/
def Target.camPoint (t : Target) : Vec3Q :=
  t.translation.add ((t.camera_offset.getD Vec2Q.zero).extend 0)

/-- `camera.rs::camera_move_to`, one run of the system. `targets` is the
`Query<(&Transform, Option<&CameraOffset>), Without<MainCamera>>` lookup and
`delta` is `time.delta()`. When the camera has no `MoveTo` the query is
empty and the system does nothing. -/
def camera_move_to (targets : EntityId → Option Target) (delta : ℚ)
    (c : Camera) : Camera :=
  match c.move_to with
  | none => c
  | some m0 =>
    let m := m0.tick delta
    if m.complete then
      match m.domain.target with
      | some tgt => { c with move_to := none, binded := some tgt }
      | none => { c with move_to := none }
    else
      match m.domain with
      | .positions s e =>
        match easingSample s e m.easing m.timer.fraction with
        | some t => { c with move_to := some m, translation := t }
        | none => { c with move_to := some m }
      | .entity s tgt =>
        match targets tgt with
        | none => { c with move_to := some m }
        | some tg =>
          match easingSample s tg.camPoint m.easing m.timer.fraction with
          | some t => { c with move_to := some m, translation := t }
          | none => { c with move_to := some m }

/-- `camera.rs::camera_binded`, one run of the system. The camera query
requires a `Binded` component; a dangling target leaves the camera
untouched (the `warn_once!` branch). -/
def camera_binded (targets : EntityId → Option Target) (c : Camera) : Camera :=
  match c.binded with
  | none => c
  | some id =>
    match targets id with
    | some tg => { c with translation := tg.camPoint }
    | none => c

/-- `anchor.rs::anchor`, one run of the system: when exactly one
`CameraAnchor` exists, snap the camera translation to it; otherwise
`get_single` fails and the system only warns. -/
def anchor (static_anchors : List Vec3Q) (c : Option Camera) : Option Camera :=
  match static_anchors with
  | [t] => c.map fun cam => { cam with translation := t }
  | _ => c

/-- `anchor.rs` `struct DynamicCameraAnchor`: trigger `radius` and `speed`
(used by both anchor systems as the move duration in milliseconds). -/
structure DynamicCameraAnchor where
  radius : ℚ
  speed : ℚ
deriving DecidableEq, Repr

/-- One entity carrying `DynamicCameraAnchor` plus its `Transform`. -/
structure DynAnchorEntity where
  id : EntityId
  anchor : DynamicCameraAnchor
  translation : Vec3Q
deriving DecidableEq, Repr

/-- `anchor.rs::bind_to_dyn_anchor`, one run of the system.
`anchor_targets` is the `With<AnchorTarget>` transform query (`get_single`
fails unless it holds exactly one element); the camera query requires
`Without<DynamicallyAnchored>`. For every dynamic anchor whose planar
squared distance to the target is within `radius²`, a point `MoveTo`
toward the anchor's translation and a `DynamicallyAnchored` marker are
inserted (later anchors in iteration order overwrite earlier ones; the
`MoveTo` start is the camera translation read at system start). -/
def bind_to_dyn_anchor (anchors : List DynAnchorEntity)
    (anchor_targets : List Vec3Q) (c : Option Camera) : Option Camera :=
  match c with
  | none => none
  | some cam =>
    if cam.dyn_anchored.isSome then some cam
    else
      match anchor_targets with
      | [ttr] =>
        some (anchors.foldl (fun acc a =>
          if abs (a.translation.xy.distance_squared ttr.xy) ≤
              a.anchor.radius * a.anchor.radius then
            { acc.insertMoveTo
                (MoveTo.new (f32CastU64 a.anchor.speed) cam.translation
                  a.translation .quadraticOut) with
              dyn_anchored := some a.id }
          else acc) cam)
      | _ => some cam

/-- `anchor.rs::unbind_dyn_anchor`, one run of the system. The camera query
requires a `DynamicallyAnchored` reference; the referenced anchor and the
single `AnchorTarget` must resolve. When the target's planar squared
distance to the bound anchor exceeds `radius²`, a `MoveTo` with the target
*entity* as destination is inserted and `DynamicallyAnchored` removed. -/
def unbind_dyn_anchor (anchors : List DynAnchorEntity)
    (anchor_targets : List (EntityId × Vec3Q)) (c : Option Camera) :
    Option Camera :=
  match c with
  | none => none
  | some cam =>
    match cam.dyn_anchored with
    | none => some cam
    | some aref =>
      match anchors.find? (fun a => a.id == aref) with
      | none => some cam
      | some a =>
        match anchor_targets with
        | [(tid, ttr)] =>
          if a.anchor.radius * a.anchor.radius <
              abs (ttr.xy.distance_squared a.translation.xy) then
            some { cam.insertMoveTo
                (MoveTo.new_with_entity (f32CastU64 a.anchor.speed)
                  cam.translation tid .quadraticOut) with
              dyn_anchored := none }
          else some cam
        | _ => some cam

/-- The camera-side world state that `CameraPlugin::build`'s `PostUpdate`
chain operates on. -/
structure CameraWorld where
  camera : Option Camera
  targets : List (EntityId × Target)
  dyn_anchors : List DynAnchorEntity
  anchor_targets : List (EntityId × Vec3Q)
  static_anchors : List Vec3Q

/-- Entity lookup backing the `Without<MainCamera>` transform queries. -/
def targetsLookup (l : List (EntityId × Target)) (id : EntityId) : Option Target :=
  (l.find? (fun p => p.1 == id)).map Prod.snd

/-- One `PostUpdate` run of the `CameraPlugin::build` chain:
`((bind_to_dyn_anchor, unbind_dyn_anchor, camera_binded, camera_move_to),
anchor).chain()` — the first four systems form a set scheduled before
`anchor` (their relative order is not constrained by Bevy; this embedding
runs them in the textual order), and `anchor` runs last. -/
def cameraTick (delta : ℚ) (w : CameraWorld) : CameraWorld :=
  let c1 := bind_to_dyn_anchor w.dyn_anchors (w.anchor_targets.map Prod.snd) w.camera
  let c2 := unbind_dyn_anchor w.dyn_anchors w.anchor_targets c1
  let c3 := c2.map (camera_binded (targetsLookup w.targets))
  let c4 := c3.map (camera_move_to (targetsLookup w.targets) delta)
  let c5 := anchor w.static_anchors c4
  { w with camera := c5 }

/-- `shake.rs` `struct ShakeSettings`. -/
structure ShakeSettings where
  amplitude : ℚ
  trauma_power : ℚ
  decay_per_second : ℚ
  frequency : ℚ
  octaves : ℕ
deriving DecidableEq, Repr

/-- `ShakeSettings::DEFAULT`. -/
def ShakeSettings.DEFAULT : ShakeSettings :=
  { trauma_power := 2, decay_per_second := 4/5, amplitude := 100,
    frequency := 15, octaves := 1 }

/-- `shake.rs` `struct Shake`. -/
structure Shake where
  trauma : ℚ
  reference_translation : Option Vec3Q
deriving DecidableEq, Repr

/-- `Shake::add_trauma`: `trauma = (trauma + amount).clamp(0., 1.)`. -/
def Shake.add_trauma (s : Shake) (amount : ℚ) : Shake :=
  { s with trauma := min (max (s.trauma + amount) 0) 1 }

/-- One entity of the `shake`/`restore` queries: its `Shake`, `Transform`
translation and optional `ShakeSettings` override. -/
structure ShakeEntity where
  shake : Shake
  translation : Vec3Q
  settings : Option ShakeSettings
deriving DecidableEq, Repr

/-- The decayed trauma the shake system computes for an entity:
`f32::max(trauma - decay_per_second * delta, 0.)`. -/
def decayedTrauma (delta : ℚ) (e : ShakeEntity) : ℚ :=
  max (e.shake.trauma - (e.settings.getD ShakeSettings.DEFAULT).decay_per_second * delta) 0

/-- Body of the `shake.rs::shake` loop for one entity. `fpow` models
`f32::powf` and `noise2 x y octaves lacunarity gain` models
`noise::fbm_simplex_2d(vec2(x, y), octaves, lacunarity, gain)`; both are
opaque numeric oracles. Returns the updated entity and `true` when the
loop continues to the next entity, `false` on the early `return` taken
when `trauma_amount <= 0`. -/
def shakeEntityStep (fpow : ℚ → ℚ → ℚ) (noise2 : ℚ → ℚ → ℕ → ℚ → ℚ → ℚ)
    (delta elapsed : ℚ) (e : ShakeEntity) : ShakeEntity × Bool :=
  let settings := e.settings.getD ShakeSettings.DEFAULT
  let trauma := decayedTrauma delta e
  let e1 : ShakeEntity := { e with shake := { e.shake with trauma := trauma } }
  let trauma_amount := fpow trauma settings.trauma_power
  if trauma_amount ≤ 0 then (e1, false)
  else
    let lacunarity : ℚ := 2
    let gain : ℚ := 1/2
    let nx : ℚ := settings.frequency * elapsed
    let offx := settings.amplitude * trauma_amount *
      noise2 nx 1 settings.octaves lacunarity gain
    let offy := settings.amplitude * trauma_amount *
      noise2 nx 2 settings.octaves lacunarity gain
    ({ e1 with
        shake := { trauma := trauma, reference_translation := some e1.translation },
        translation :=
          ⟨e1.translation.x + offx, e1.translation.y + offy, e1.translation.z⟩ },
      true)

/-- `shake.rs::shake`, one run of the system over the query's entities in
iteration order. The loop body ends in `return` (not `continue`) when
`trauma_amount <= 0`, so the first such entity aborts the whole system and
every later entity is left untouched. -/
def shakeSystem (fpow : ℚ → ℚ → ℚ) (noise2 : ℚ → ℚ → ℕ → ℚ → ℚ → ℚ)
    (delta elapsed : ℚ) : List ShakeEntity → List ShakeEntity
  | [] => []
  | e :: rest =>
    match shakeEntityStep fpow noise2 delta elapsed e with
    | (e2, false) => e2 :: rest
    | (e2, true) => e2 :: shakeSystem fpow noise2 delta elapsed rest

/-- Body of the `shake.rs::restore` loop for one entity: put the recorded
`reference_translation` back (if any) and clear the slot. -/
def restoreEntity (e : ShakeEntity) : ShakeEntity :=
  match e.shake.reference_translation with
  | some r =>
    { e with translation := r,
             shake := { e.shake with reference_translation := none } }
  | none => e

/-- `shake.rs::restore`, one run of the system (runs in `PreUpdate`, before
any `shake` application of the same tick). -/
def restoreSystem (l : List ShakeEntity) : List ShakeEntity :=
  l.map restoreEntity

/-- `shake.rs` `AddTraumaCommand::apply`: iterate every `Shake` in the
world and call `add_trauma` on it. -/
def addTraumaCommand (amount : ℚ) : List ShakeEntity → List ShakeEntity
  | [] => []
  | e :: rest =>
    { e with shake := e.shake.add_trauma amount } :: addTraumaCommand amount rest

/-- One entity of the `zorder.rs::order_z` queries: transform `z`, its
`ZOrder` value, the system-owned `UnorderedZ` snapshot (if captured), and
whether `ZOrder` changed since the system's last run. -/
structure ZEntity where
  z : ℚ
  zorder : ℚ
  unordered : Option ℚ
  zorder_changed : Bool
deriving DecidableEq, Repr

/-- Mutating `ZOrder` (what `commands.insert(ZOrder(v))` or user code does):
sets the value and trips change detection. -/
def setZOrder (e : ZEntity) (v : ℚ) : ZEntity :=
  { e with zorder := v, zorder_changed := true }

/-- `zorder.rs::order_z` restricted to one entity. An entity with a changed
`ZOrder` and no `UnorderedZ` gets `UnorderedZ(z)` inserted and `z += order`;
one with a snapshot gets `z = unordered + order`. Running the system clears
the change-detection flag for subsequent runs. -/
def order_z (e : ZEntity) : ZEntity :=
  if e.zorder_changed then
    match e.unordered with
    | none =>
      { e with unordered := some e.z, z := e.z + e.zorder, zorder_changed := false }
    | some b => { e with z := b + e.zorder, zorder_changed := false }
  else e

/-- A concrete instance of the `f32::powf` oracle, adequate at the default
`trauma_power = 2`: squaring. It matches IEEE `powf` on the only facts the
systems observe (`powf(0, 2) = 0`; `powf(x, 2) > 0` for `x ≠ 0`). -/
def powSq (x _p : ℚ) : ℚ := x * x

/-- A concrete instance of the `fbm_simplex_2d` noise oracle (its values
are irrelevant to every claim). -/
def noiseZero (_x _y : ℚ) (_octaves : ℕ) (_lacunarity _gain : ℚ) : ℚ := 0

/-! ## Helper lemmas -/

theorem bind_to_dyn_anchor_some (as : List DynAnchorEntity) (ts : List Vec3Q)
    (c : Camera) : ∃ c2, bind_to_dyn_anchor as ts (some c) = some c2 := by
  rw [← Option.isSome_iff_exists]
  unfold bind_to_dyn_anchor
  (repeat' split) <;> simp_all

theorem unbind_dyn_anchor_some (as : List DynAnchorEntity)
    (ts : List (EntityId × Vec3Q)) (c : Camera) :
    ∃ c2, unbind_dyn_anchor as ts (some c) = some c2 := by
  rw [← Option.isSome_iff_exists]
  unfold unbind_dyn_anchor
  (repeat' split) <;> simp_all

theorem anchor_single (t : Vec3Q) (c : Camera) :
    anchor [t] (some c) = some { c with translation := t } := rfl

theorem timer_fraction_bounds (T : Timer) (delta : ℚ) (h0 : 0 ≤ T.elapsed)
    (hd : 0 ≤ delta) (hc : (T.tick delta).finished = false) :
    0 ≤ (T.tick delta).fraction ∧ (T.tick delta).fraction ≤ 1 := by
  have h1 : 0 ≤ T.elapsed + delta := add_nonneg h0 hd
  have hlt : min (T.elapsed + delta) T.duration < T.duration := by
    simpa [Timer.finished, Timer.tick] using hc
  have hmin : min (T.elapsed + delta) T.duration = T.elapsed + delta := by
    rcases min_cases (T.elapsed + delta) T.duration with ⟨h, _⟩ | ⟨h, _⟩
    · exact h
    · rw [h] at hlt
      exact absurd hlt (lt_irrefl _)
  have hed : T.elapsed + delta < T.duration := by
    rw [hmin] at hlt
    exact hlt
  have hdpos : 0 < T.duration := lt_of_le_of_lt h1 hed
  have hfr : (T.tick delta).fraction = (T.elapsed + delta) / T.duration := by
    simp [Timer.tick, Timer.fraction, hmin, ne_of_gt hdpos]
  constructor
  · rw [hfr]
    exact div_nonneg h1 hdpos.le
  · rw [hfr]
    exact (div_le_one hdpos).mpr hed.le

/-! ## Claim theorems -/

/-- Claim C1, counterexample to the stated form. Anchor target at
`(81, 0, 0)`, dynamic anchor entity `7` at `(100, 0, 0)` with radius `20`
and speed `300`, camera at the origin and not dynamically anchored: the
planar distance is `19 ≤ 20`, and the bind system issues a `MoveTo` whose
domain is `positions` ending at the *anchor's own* translation
`(100, 0, 0)` — not a move-to-entity targeting the anchor target, as the
claim states. -/
theorem bind_to_dyn_anchor_issues_point_move :
    bind_to_dyn_anchor [⟨7, ⟨20, 300⟩, ⟨100, 0, 0⟩⟩] [⟨81, 0, 0⟩]
        (some ⟨⟨0, 0, 0⟩, none, none, none⟩) =
      some ⟨⟨0, 0, 0⟩,
        some ⟨⟨0, 3/10⟩, .quadraticOut, .positions ⟨0, 0, 0⟩ ⟨100, 0, 0⟩⟩,
        none, some 7⟩
    ∧ Domain.isEntity (.positions ⟨0, 0, 0⟩ ⟨100, 0, 0⟩) = false := by
  constructor
  · simp [bind_to_dyn_anchor, Camera.insertMoveTo, MoveTo.new, Timer.new,
      millisToSecs, f32CastU64, Vec3Q.xy, Vec2Q.distance_squared]
    norm_num [abs]
  · rfl

/-- Claim C1, amended: whenever the squared planar distance between the
single anchor target and a dynamic anchor is at most `radius²` (boundary
inclusive) while the camera is not currently dynamically anchored, the
bind system issues a move-to-**point** command toward the **anchor's own
translation**, with duration `duration_ms = speed` (the `f32` cast to
integer milliseconds) and a quadratic-ease-out curve, starting from the
camera's current translation, and simultaneously records the camera as
dynamically anchored to that anchor entity (the `MoveTo` insertion hook
also clears any `Binded`). -/
theorem bind_to_dyn_anchor_inside_radius (cam : Camera) (a : DynAnchorEntity)
    (ttr : Vec3Q) (hfree : cam.dyn_anchored = none)
    (hin : abs (a.translation.xy.distance_squared ttr.xy) ≤
      a.anchor.radius * a.anchor.radius) :
    bind_to_dyn_anchor [a] [ttr] (some cam) =
      some { cam with
        move_to := some (MoveTo.new (f32CastU64 a.anchor.speed)
          cam.translation a.translation .quadraticOut),
        binded := none,
        dyn_anchored := some a.id } := by
  simp [bind_to_dyn_anchor, hfree, Camera.insertMoveTo, hin]

/-- Witness for the amended C1 theorem: target at `(80, 0, 0)` is at
distance exactly `radius = 20` from the anchor at `(100, 0, 0)` and the
bind still triggers (inclusive boundary). -/
theorem bind_to_dyn_anchor_inside_radius_witness :
    bind_to_dyn_anchor [⟨7, ⟨20, 300⟩, ⟨100, 0, 0⟩⟩] [⟨80, 0, 0⟩]
        (some ⟨⟨0, 0, 0⟩, none, none, none⟩) =
      some ⟨⟨0, 0, 0⟩,
        some (MoveTo.new (f32CastU64 300) ⟨0, 0, 0⟩ ⟨100, 0, 0⟩ .quadraticOut),
        none, some 7⟩ := by
  have h := bind_to_dyn_anchor_inside_radius ⟨⟨0, 0, 0⟩, none, none, none⟩
    ⟨7, ⟨20, 300⟩, ⟨100, 0, 0⟩⟩ ⟨80, 0, 0⟩ rfl
    (by norm_num [Vec3Q.xy, Vec2Q.distance_squared, abs])
  simpa using h

/-- Claim C2, counterexample to the stated form. Camera at the origin,
dynamically anchored to anchor entity `7` at `(100, 0, 0)` with radius
`20` and speed `300`; the single anchor target (entity `5`) sits at
`(131, 0, 0)`, distance `31 > 20` from the anchor: the unbind system
issues a `MoveTo` whose domain is `entity 5` — a move-to-entity toward the
*anchor target* — not a move-to-point back to the anchor's own fixed
position `(100, 0, 0)`, as the claim states. -/
theorem unbind_dyn_anchor_issues_entity_move :
    unbind_dyn_anchor [⟨7, ⟨20, 300⟩, ⟨100, 0, 0⟩⟩] [(5, ⟨131, 0, 0⟩)]
        (some ⟨⟨0, 0, 0⟩, none, none, some 7⟩) =
      some ⟨⟨0, 0, 0⟩,
        some ⟨⟨0, 3/10⟩, .quadraticOut, .entity ⟨0, 0, 0⟩ 5⟩,
        none, none⟩
    ∧ Domain.isEntity (.entity ⟨0, 0, 0⟩ 5) = true
    ∧ Domain.entity ⟨0, 0, 0⟩ 5 ≠ Domain.positions ⟨0, 0, 0⟩ ⟨100, 0, 0⟩ := by
  refine ⟨?_, rfl, by simp⟩
  simp [unbind_dyn_anchor, Camera.insertMoveTo, MoveTo.new_with_entity,
    Timer.new, millisToSecs, f32CastU64, Vec3Q.xy, Vec2Q.distance_squared]
  norm_num [abs]

/-- Claim C2, amended: whenever the camera is currently dynamically bound
to an anchor and the squared planar distance between the single anchor
target and that anchor's position strictly exceeds `radius²` (distance
exactly `radius` does not unbind), the unbind system issues a
move-to-**entity** command toward the **anchor target entity** (so the
camera interpolates toward the target's live transform), with the same
duration rule (`duration_ms = speed`) and a quadratic-ease-out curve, and
clears the dynamic-binding record. -/
theorem unbind_dyn_anchor_outside_radius (cam : Camera) (a : DynAnchorEntity)
    (tid : EntityId) (ttr : Vec3Q) (hbound : cam.dyn_anchored = some a.id)
    (hout : a.anchor.radius * a.anchor.radius <
      abs (ttr.xy.distance_squared a.translation.xy)) :
    unbind_dyn_anchor [a] [(tid, ttr)] (some cam) =
      some { cam with
        move_to := some (MoveTo.new_with_entity (f32CastU64 a.anchor.speed)
          cam.translation tid .quadraticOut),
        binded := none,
        dyn_anchored := none } := by
  simp [unbind_dyn_anchor, hbound, Camera.insertMoveTo, hout]

/-- Claim C3, counterexample to the stated form. A `MoveTo` toward the
point `(100, 0, 0)` with duration `300 ms`, camera starting at the origin,
ticked once with `Δt = 0.3 s` (so `t = D`): the system removes the
`MoveTo` (mode becomes Free) but never writes the end position — the
camera translation is still `(0, 0, 0)`, not `B = (100, 0, 0)`. -/
theorem camera_move_to_point_completion_cex :
    camera_move_to (fun _ => none) (3/10)
        ⟨⟨0, 0, 0⟩, some (MoveTo.new 300 ⟨0, 0, 0⟩ ⟨100, 0, 0⟩ .quadraticOut),
          none, none⟩ =
      ⟨⟨0, 0, 0⟩, none, none, none⟩
    ∧ (⟨0, 0, 0⟩ : Vec3Q) ≠ ⟨100, 0, 0⟩ := by
  constructor
  · simp [camera_move_to, MoveTo.new, MoveTo.tick, MoveTo.complete, Timer.new,
      Timer.tick, Timer.finished, millisToSecs, Domain.target]
    norm_num
  · simp only [ne_eq, Vec3Q.mk.injEq, not_and]
    intro h
    norm_num at h

/-- Claim C3, amended: when a `MovingToPoint` camera's timer reaches its
duration (`elapsed ≥ duration` after the tick), the system removes the
`MoveTo` and installs no binding — the mode transitions to Free — but it
does **not** write the end position on that tick: the translation keeps
the value sampled on the last pre-completion tick. Afterward, with no
`MoveTo` present, `camera_move_to` leaves the camera unchanged absent a
new command. -/
theorem camera_move_to_point_completion :
    (∀ (targets : EntityId → Option Target) (delta : ℚ) (c : Camera)
        (m : MoveTo) (s e : Vec3Q),
      c.move_to = some m → m.domain = .positions s e →
      (m.tick delta).complete = true →
      camera_move_to targets delta c = { c with move_to := none })
    ∧ (∀ (targets : EntityId → Option Target) (delta : ℚ) (c : Camera),
      c.move_to = none → camera_move_to targets delta c = c) := by
  constructor
  · intro targets delta c m s e hm hdom hc
    have hc2 : (m.timer.tick delta).finished = true := by
      simpa [MoveTo.tick, MoveTo.complete] using hc
    simp [camera_move_to, hm, MoveTo.tick, MoveTo.complete, hc2, hdom,
      Domain.target]
  · intro targets delta c hm
    simp [camera_move_to, hm]

/-- Witness for the amended C3 theorem: a completed point move leaves the
translation at its pre-completion value and removes the `MoveTo`; a camera
with no `MoveTo` is untouched. -/
theorem camera_move_to_point_completion_witness :
    camera_move_to (fun _ => none) (1/2)
        ⟨⟨1, 2, 3⟩, some (MoveTo.new 300 ⟨1, 2, 3⟩ ⟨9, 9, 9⟩ .linear),
          none, none⟩ =
      ⟨⟨1, 2, 3⟩, none, none, none⟩
    ∧ camera_move_to (fun _ => none) (1/2) ⟨⟨4, 5, 6⟩, none, some 3, none⟩ =
      ⟨⟨4, 5, 6⟩, none, some 3, none⟩ := by
  constructor
  · have h := camera_move_to_point_completion.1 (fun _ => none) (1/2)
      ⟨⟨1, 2, 3⟩, some (MoveTo.new 300 ⟨1, 2, 3⟩ ⟨9, 9, 9⟩ .linear), none, none⟩
      (MoveTo.new 300 ⟨1, 2, 3⟩ ⟨9, 9, 9⟩ .linear) ⟨1, 2, 3⟩ ⟨9, 9, 9⟩ rfl rfl
      (by simp [MoveTo.new, MoveTo.tick, MoveTo.complete, Timer.new, Timer.tick,
            Timer.finished, millisToSecs]
          norm_num)
    simpa using h
  · exact camera_move_to_point_completion.2 (fun _ => none) (1/2) _ rfl

/-- Claim C5, confirmed. For a camera in `MovingToEntity` mode (`Domain.entity`):
on a tick that does not complete the timer, the written translation is the
eased interpolation from the recorded start toward `targets tid` — the
target's translation *as looked up on this tick* plus its optional
`CameraOffset` (the domain stores no end position, only the entity id, so
no flight-start position can be used); if the target does not resolve, the
system (a total function — no crash) leaves the camera unchanged except for
the ticked timer, keeping the `MoveTo` so resolution is retried on the next
tick; and on the completing tick the `MoveTo` is removed and `Binded tid`
is installed (auto-transition to `BoundTo(target_id)`). -/
theorem camera_move_to_entity_live_target :
    (∀ (targets : EntityId → Option Target) (delta : ℚ) (c : Camera)
        (m : MoveTo) (s : Vec3Q) (tid : EntityId) (tg : Target),
      c.move_to = some m → m.domain = .entity s tid →
      0 ≤ delta → 0 ≤ m.timer.elapsed →
      (m.tick delta).complete = false → targets tid = some tg →
      camera_move_to targets delta c =
        { c with move_to := some (m.tick delta),
                 translation := s.lerp tg.camPoint
                   (m.easing.eval ((m.tick delta).timer.fraction)) })
    ∧ (∀ (targets : EntityId → Option Target) (delta : ℚ) (c : Camera)
        (m : MoveTo) (s : Vec3Q) (tid : EntityId),
      c.move_to = some m → m.domain = .entity s tid →
      (m.tick delta).complete = false → targets tid = none →
      camera_move_to targets delta c = { c with move_to := some (m.tick delta) })
    ∧ (∀ (targets : EntityId → Option Target) (delta : ℚ) (c : Camera)
        (m : MoveTo) (s : Vec3Q) (tid : EntityId),
      c.move_to = some m → m.domain = .entity s tid →
      (m.tick delta).complete = true →
      camera_move_to targets delta c =
        { c with move_to := none, binded := some tid }) := by
  refine ⟨?_, ?_, ?_⟩
  · intro targets delta c m s tid tg hm hdom hdel hel hc htg
    have hc2 : (m.timer.tick delta).finished = false := by
      simpa [MoveTo.tick, MoveTo.complete] using hc
    obtain ⟨hf0, hf1⟩ := timer_fraction_bounds m.timer delta hel hdel hc2
    simp [camera_move_to, hm, MoveTo.tick, MoveTo.complete, hc2, hdom, htg,
      easingSample, hf0, hf1]
  · intro targets delta c m s tid hm hdom hc htg
    have hc2 : (m.timer.tick delta).finished = false := by
      simpa [MoveTo.tick, MoveTo.complete] using hc
    simp [camera_move_to, hm, MoveTo.tick, MoveTo.complete, hc2, hdom, htg]
  · intro targets delta c m s tid hm hdom hc
    have hc2 : (m.timer.tick delta).finished = true := by
      simpa [MoveTo.tick, MoveTo.complete] using hc
    simp [camera_move_to, hm, MoveTo.tick, MoveTo.complete, hc2, hdom,
      Domain.target]

/-- Witness for C5 at concrete inputs. A 1-second linear move toward
entity `42` ticked by `0.25 s` samples a quarter of the way toward the
target's current position `(52, 8, 0)` (translation `(50, 3, 0)` plus
offset `(2, 5)`); with the target missing only the timer advances; a
completing tick installs `Binded 42`. -/
theorem camera_move_to_entity_live_target_witness :
    camera_move_to (fun _ => some ⟨⟨50, 3, 0⟩, some ⟨2, 5⟩⟩) (1/4)
        ⟨⟨0, 0, 0⟩, some (MoveTo.new_with_entity 1000 ⟨0, 0, 0⟩ 42 .linear),
          none, none⟩ =
      ⟨⟨13, 2, 0⟩,
        some ⟨⟨1/4, 1⟩, .linear, .entity ⟨0, 0, 0⟩ 42⟩, none, none⟩
    ∧ camera_move_to (fun _ => none) (1/4)
        ⟨⟨7, 0, 0⟩, some (MoveTo.new_with_entity 1000 ⟨0, 0, 0⟩ 42 .linear),
          none, none⟩ =
      ⟨⟨7, 0, 0⟩,
        some ⟨⟨1/4, 1⟩, .linear, .entity ⟨0, 0, 0⟩ 42⟩, none, none⟩
    ∧ camera_move_to (fun _ => none) 2
        ⟨⟨7, 0, 0⟩, some (MoveTo.new_with_entity 1000 ⟨0, 0, 0⟩ 42 .linear),
          none, none⟩ =
      ⟨⟨7, 0, 0⟩, none, some 42, none⟩ := by
  refine ⟨?_, ?_, ?_⟩
  · have h := camera_move_to_entity_live_target.1
      (fun _ => some ⟨⟨50, 3, 0⟩, some ⟨2, 5⟩⟩) (1/4)
      ⟨⟨0, 0, 0⟩, some (MoveTo.new_with_entity 1000 ⟨0, 0, 0⟩ 42 .linear),
        none, none⟩
      (MoveTo.new_with_entity 1000 ⟨0, 0, 0⟩ 42 .linear) ⟨0, 0, 0⟩ 42
      ⟨⟨50, 3, 0⟩, some ⟨2, 5⟩⟩ rfl rfl (by norm_num)
      (by norm_num [MoveTo.new_with_entity, Timer.new, millisToSecs])
      (by simp [MoveTo.new_with_entity, MoveTo.tick, MoveTo.complete,
            Timer.new, Timer.tick, Timer.finished, millisToSecs]
          norm_num)
      rfl
    rw [h]
    norm_num [MoveTo.new_with_entity, MoveTo.tick, Timer.new, Timer.tick,
      Timer.fraction, millisToSecs, Target.camPoint, Vec2Q.extend,
      Vec3Q.add, Vec3Q.lerp, Vec2Q.zero, EaseFunction.eval]
  · have h := camera_move_to_entity_live_target.2.1 (fun _ => none) (1/4)
      ⟨⟨7, 0, 0⟩, some (MoveTo.new_with_entity 1000 ⟨0, 0, 0⟩ 42 .linear),
        none, none⟩
      (MoveTo.new_with_entity 1000 ⟨0, 0, 0⟩ 42 .linear) ⟨0, 0, 0⟩ 42 rfl rfl
      (by simp [MoveTo.new_with_entity, MoveTo.tick, MoveTo.complete,
            Timer.new, Timer.tick, Timer.finished, millisToSecs]
          norm_num)
      rfl
    rw [h]
    norm_num [MoveTo.new_with_entity, MoveTo.tick, Timer.new, Timer.tick,
      millisToSecs]
  · have h := camera_move_to_entity_live_target.2.2 (fun _ => none) 2
      ⟨⟨7, 0, 0⟩, some (MoveTo.new_with_entity 1000 ⟨0, 0, 0⟩ 42 .linear),
        none, none⟩
      (MoveTo.new_with_entity 1000 ⟨0, 0, 0⟩ 42 .linear) ⟨0, 0, 0⟩ 42 rfl rfl
      (by simp [MoveTo.new_with_entity, MoveTo.tick, MoveTo.complete,
            Timer.new, Timer.tick, Timer.finished, millisToSecs]
          try norm_num)
    rw [h]

/-- Witness for the amended C2 theorem, at the concrete unbind scenario
(target at distance `31 > radius = 20`). -/
theorem unbind_dyn_anchor_outside_radius_witness :
    unbind_dyn_anchor [⟨7, ⟨20, 300⟩, ⟨100, 0, 0⟩⟩] [(5, ⟨131, 0, 0⟩)]
        (some ⟨⟨10, 0, 0⟩, none, none, some 7⟩) =
      some ⟨⟨10, 0, 0⟩,
        some (MoveTo.new_with_entity (f32CastU64 300) ⟨10, 0, 0⟩ 5 .quadraticOut),
        none, none⟩ := by
  have h := unbind_dyn_anchor_outside_radius ⟨⟨10, 0, 0⟩, none, none, some 7⟩
    ⟨7, ⟨20, 300⟩, ⟨100, 0, 0⟩⟩ 5 ⟨131, 0, 0⟩ rfl
    (by norm_num [Vec3Q.xy, Vec2Q.distance_squared, abs])
  simpa using h

/-- Claim C4, code-bug evidence. The `shake` system's loop body ends in
`return` (not `continue`) when an entity's `trauma_amount ≤ 0`, so the
first idle entity in query order aborts the whole pass: in a world with a
zero-trauma entity followed by one at trauma `1/2`, a `Δt = 0.1 s` tick
with the default settings leaves the second entity's trauma at `1/2`,
although per-entity decay (the claim, and the documented behavior of
`add_trauma`) demands `max(0, 1/2 − 0.8·0.1) = 21/50`. -/
theorem shake_decay_early_return_cex :
    shakeSystem powSq noiseZero (1/10) 0
        [⟨⟨0, none⟩, ⟨0, 0, 0⟩, none⟩, ⟨⟨1/2, none⟩, ⟨0, 0, 0⟩, none⟩] =
      [⟨⟨0, none⟩, ⟨0, 0, 0⟩, none⟩, ⟨⟨1/2, none⟩, ⟨0, 0, 0⟩, none⟩]
    ∧ max ((1:ℚ)/2 - (4/5) * (1/10)) 0 = 21/50
    ∧ ((1:ℚ)/2) ≠ 21/50 := by
  have h1 : max ((0:ℚ) - 4/5 * (1/10)) 0 = 0 := max_eq_right (by norm_num)
  have h2 : ((1:ℚ)/2 - 4/5 * (1/10)) = 21/50 := by norm_num
  refine ⟨?_, by rw [h2]; exact max_eq_left (by norm_num), by norm_num⟩
  simp only [shakeSystem, shakeEntityStep, decayedTrauma, ShakeSettings.DEFAULT,
    Option.getD_none, powSq]
  rw [h1]
  norm_num

/-- Claim C6, confirmed. In the `CameraPlugin::build` pipeline the static
`anchor` pass is chained after the four motion systems, so whenever exactly
one static anchor exists (and a camera is present) the camera's translation
at the end of the tick equals that anchor's translation, whatever the
bind/unbind/`Binded`/`MoveTo` passes produced in between; and when the
number of static anchors is not exactly one, the `anchor` pass changes
nothing (its `get_single` fails and it only warns). -/
theorem static_anchor_last_overrides :
    (∀ (w : CameraWorld) (delta : ℚ) (t : Vec3Q) (c : Camera),
      w.static_anchors = [t] → w.camera = some c →
      ∃ c2, (cameraTick delta w).camera = some c2 ∧ c2.translation = t)
    ∧ (∀ (sa : List Vec3Q) (oc : Option Camera), sa.length ≠ 1 →
      anchor sa oc = oc) := by
  constructor
  · intro w delta t c hsa hcam
    obtain ⟨c1, hc1⟩ := bind_to_dyn_anchor_some w.dyn_anchors
      (w.anchor_targets.map Prod.snd) c
    obtain ⟨c2, hc2⟩ := unbind_dyn_anchor_some w.dyn_anchors w.anchor_targets c1
    refine ⟨{ camera_move_to (targetsLookup w.targets) delta
        (camera_binded (targetsLookup w.targets) c2) with translation := t },
      ?_, rfl⟩
    simp [cameraTick, hcam, hc1, hc2, hsa, anchor]
  · intro sa oc h
    match sa with
    | [] => rfl
    | [t] => simp at h
    | t1 :: t2 :: tr => rfl

/-- Witness for C6: a camera bound to entity `4` in a world with one
static anchor at `(40, 50, 60)` ends the tick at the anchor, not at its
bind target; with zero static anchors the pass is the identity. -/
theorem static_anchor_last_overrides_witness :
    (∃ c2, (cameraTick (1/10)
        ⟨some ⟨⟨1, 2, 3⟩, none, some 4, none⟩,
          [(4, ⟨⟨8, 8, 8⟩, none⟩)], [], [], [⟨40, 50, 60⟩]⟩).camera = some c2
      ∧ c2.translation = ⟨40, 50, 60⟩)
    ∧ anchor [] (some ⟨⟨0, 0, 0⟩, none, none, none⟩) =
        some ⟨⟨0, 0, 0⟩, none, none, none⟩ := by
  exact ⟨static_anchor_last_overrides.1 _ (1/10) ⟨40, 50, 60⟩
      ⟨⟨1, 2, 3⟩, none, some 4, none⟩ rfl rfl,
    static_anchor_last_overrides.2 [] _ (by simp)⟩

/-- Claim C7, confirmed. The shake engine applies an offset to an entity it
processes only when `trauma_amount = trauma^trauma_power > 0` (when
`≤ 0` only the decayed trauma is stored: translation and
`reference_translation` are untouched); when it does apply, it snapshots
the current (pre-offset) translation into `reference_translation` and adds
the two noise-channel offsets to `x` and `y` only, leaving `z` unchanged;
the `restore` pass (scheduled in `PreUpdate`, before any shake application
of the next tick) writes the snapshot back to the translation and clears
the slot; consequently once trauma has decayed so that `trauma_amount ≤
0`, the post-shake translation equals the restored pre-shake reference
translation, with no residual drift. -/
theorem shake_offset_restore_spec :
    (∀ (fpow : ℚ → ℚ → ℚ) (noise2 : ℚ → ℚ → ℕ → ℚ → ℚ → ℚ)
        (delta elapsed : ℚ) (e : ShakeEntity),
      fpow (decayedTrauma delta e)
          (e.settings.getD ShakeSettings.DEFAULT).trauma_power ≤ 0 →
      shakeEntityStep fpow noise2 delta elapsed e =
        ({ e with shake := { e.shake with trauma := decayedTrauma delta e } },
          false))
    ∧ (∀ (fpow : ℚ → ℚ → ℚ) (noise2 : ℚ → ℚ → ℕ → ℚ → ℚ → ℚ)
        (delta elapsed : ℚ) (e : ShakeEntity),
      0 < fpow (decayedTrauma delta e)
          (e.settings.getD ShakeSettings.DEFAULT).trauma_power →
      (shakeEntityStep fpow noise2 delta elapsed e).1 =
        { e with
          shake := { trauma := decayedTrauma delta e,
                     reference_translation := some e.translation },
          translation :=
            ⟨e.translation.x +
                (e.settings.getD ShakeSettings.DEFAULT).amplitude *
                  fpow (decayedTrauma delta e)
                    (e.settings.getD ShakeSettings.DEFAULT).trauma_power *
                  noise2 ((e.settings.getD ShakeSettings.DEFAULT).frequency *
                      elapsed) 1
                    (e.settings.getD ShakeSettings.DEFAULT).octaves 2 (1/2),
              e.translation.y +
                (e.settings.getD ShakeSettings.DEFAULT).amplitude *
                  fpow (decayedTrauma delta e)
                    (e.settings.getD ShakeSettings.DEFAULT).trauma_power *
                  noise2 ((e.settings.getD ShakeSettings.DEFAULT).frequency *
                      elapsed) 2
                    (e.settings.getD ShakeSettings.DEFAULT).octaves 2 (1/2),
              e.translation.z⟩ })
    ∧ (∀ (e : ShakeEntity) (r : Vec3Q),
      e.shake.reference_translation = some r →
      restoreEntity e =
        { e with translation := r,
                 shake := { e.shake with reference_translation := none } })
    ∧ (∀ (fpow : ℚ → ℚ → ℚ) (noise2 : ℚ → ℚ → ℕ → ℚ → ℚ → ℚ)
        (delta elapsed : ℚ) (e : ShakeEntity) (r : Vec3Q),
      e.shake.reference_translation = some r →
      fpow (decayedTrauma delta (restoreEntity e))
          ((restoreEntity e).settings.getD ShakeSettings.DEFAULT).trauma_power
        ≤ 0 →
      (shakeEntityStep fpow noise2 delta elapsed (restoreEntity e)).1.translation
        = r) := by
  refine ⟨?_, ?_, ?_, ?_⟩
  · intro fpow noise2 delta elapsed e h
    simp [shakeEntityStep, h]
  · intro fpow noise2 delta elapsed e h
    have hg : ¬ (fpow (decayedTrauma delta e)
        (e.settings.getD ShakeSettings.DEFAULT).trauma_power ≤ 0) := not_le.mpr h
    simp [shakeEntityStep, hg]
  · intro e r h
    simp [restoreEntity, h]
  · intro fpow noise2 delta elapsed e r href h
    have htr : (restoreEntity e).translation = r := by
      simp [restoreEntity, href]
    simp [shakeEntityStep, h, htr]

/-- Witness for C7 at concrete inputs: an idle entity keeps translation
and snapshot slot; a shaking entity (trauma `1/2`, default settings,
noise oracle `x + y`) snapshots `(1, 2, 3)` and moves to `(401, 427, 3)`
with `z` unchanged; restore puts a snapshot `(9, 9, 9)` back and clears
the slot; restore followed by an idle shake tick ends at the reference
`(5, 6, 7)` exactly. -/
theorem shake_offset_restore_spec_witness :
    shakeEntityStep powSq noiseZero 0 0 ⟨⟨0, none⟩, ⟨1, 2, 3⟩, none⟩ =
      (⟨⟨0, none⟩, ⟨1, 2, 3⟩, none⟩, false)
    ∧ (shakeEntityStep powSq (fun x y _ _ _ => x + y) 0 1
        ⟨⟨1/2, none⟩, ⟨1, 2, 3⟩, none⟩).1 =
      ⟨⟨1/2, some ⟨1, 2, 3⟩⟩, ⟨401, 427, 3⟩, none⟩
    ∧ restoreEntity ⟨⟨1/4, some ⟨9, 9, 9⟩⟩, ⟨0, 0, 0⟩, none⟩ =
      ⟨⟨1/4, none⟩, ⟨9, 9, 9⟩, none⟩
    ∧ (shakeEntityStep powSq noiseZero 0 0
        (restoreEntity ⟨⟨0, some ⟨5, 6, 7⟩⟩, ⟨123, 0, 0⟩, none⟩)).1.translation =
      ⟨5, 6, 7⟩ := by
  refine ⟨?_, ?_, ?_, ?_⟩
  · have h := shake_offset_restore_spec.1 powSq noiseZero 0 0
      ⟨⟨0, none⟩, ⟨1, 2, 3⟩, none⟩
      (by simp [decayedTrauma, ShakeSettings.DEFAULT, powSq])
    simpa [decayedTrauma, ShakeSettings.DEFAULT] using h
  · have h := shake_offset_restore_spec.2.1 powSq (fun x y _ _ _ => x + y) 0 1
      ⟨⟨1/2, none⟩, ⟨1, 2, 3⟩, none⟩
      (by norm_num [decayedTrauma, ShakeSettings.DEFAULT, powSq])
    rw [h]
    norm_num [decayedTrauma, ShakeSettings.DEFAULT, powSq]
  · exact shake_offset_restore_spec.2.2.1 ⟨⟨1/4, some ⟨9, 9, 9⟩⟩, ⟨0, 0, 0⟩, none⟩
      ⟨9, 9, 9⟩ rfl
  · exact shake_offset_restore_spec.2.2.2 powSq noiseZero 0 0
      ⟨⟨0, some ⟨5, 6, 7⟩⟩, ⟨123, 0, 0⟩, none⟩ ⟨5, 6, 7⟩ rfl
      (by simp [decayedTrauma, restoreEntity, ShakeSettings.DEFAULT, powSq])

/-- Claim C8, confirmed. With `mode = BoundTo(id)` (a `Binded(id)`
component), `camera_binded` snaps the camera translation to target `id`'s
current translation plus its optional `CameraOffset` — a hard,
non-interpolated binding applied every tick; when `id` does not resolve,
the system (a total function — no panic) leaves the camera state entirely
unchanged. -/
theorem camera_binded_spec :
    (∀ (targets : EntityId → Option Target) (c : Camera) (id : EntityId)
        (tg : Target),
      c.binded = some id → targets id = some tg →
      camera_binded targets c = { c with translation := tg.camPoint })
    ∧ (∀ (targets : EntityId → Option Target) (c : Camera) (id : EntityId),
      c.binded = some id → targets id = none →
      camera_binded targets c = c) := by
  constructor
  · intro targets c id tg hb ht
    simp [camera_binded, hb, ht]
  · intro targets c id hb ht
    simp [camera_binded, hb, ht]

/-- Witness for C8: a camera bound to entity `9` snaps to `(52, 8, 0)`
(target translation `(50, 3, 0)` plus offset `(2, 5)`); with the target
gone the camera is unchanged. -/
theorem camera_binded_spec_witness :
    camera_binded (fun _ => some ⟨⟨50, 3, 0⟩, some ⟨2, 5⟩⟩)
        ⟨⟨0, 0, 0⟩, none, some 9, none⟩ =
      ⟨⟨52, 8, 0⟩, none, some 9, none⟩
    ∧ camera_binded (fun _ => none) ⟨⟨1, 1, 1⟩, none, some 9, none⟩ =
      ⟨⟨1, 1, 1⟩, none, some 9, none⟩ := by
  constructor
  · have h := camera_binded_spec.1 (fun _ => some ⟨⟨50, 3, 0⟩, some ⟨2, 5⟩⟩)
      ⟨⟨0, 0, 0⟩, none, some 9, none⟩ 9 ⟨⟨50, 3, 0⟩, some ⟨2, 5⟩⟩ rfl rfl
    rw [h]
    norm_num [Target.camPoint, Vec3Q.add, Vec2Q.extend]
  · exact camera_binded_spec.2 (fun _ => none) ⟨⟨1, 1, 1⟩, none, some 9, none⟩
      9 rfl rfl

/-- Claim C9, confirmed. `order_z` captures the base exactly once: the
first time an entity is seen with a (changed) `ZOrder` and no `UnorderedZ`,
the current `z` is snapshotted as the base and `z` becomes `base + v`;
every later `ZOrder` change recomputes `z = base + v_new` from the stored
base without re-snapshotting; applying the system again with the same
`ZOrder` value is idempotent; concretely, base `10` with `ZOrder 0.5`
gives `z = 10.5`, and changing `ZOrder` to `0.8` with no external `z`
mutation gives `z = 10.8`. -/
theorem order_z_spec :
    (∀ e : ZEntity, e.zorder_changed = true → e.unordered = none →
      order_z e = { e with unordered := some e.z, z := e.z + e.zorder,
                           zorder_changed := false })
    ∧ (∀ (e : ZEntity) (b : ℚ), e.zorder_changed = true → e.unordered = some b →
      order_z e = { e with z := b + e.zorder, zorder_changed := false })
    ∧ (∀ (e : ZEntity) (v : ℚ),
      order_z (setZOrder (order_z (setZOrder e v)) v) = order_z (setZOrder e v))
    ∧ order_z (setZOrder ⟨10, 0, none, false⟩ (1/2)) = ⟨21/2, 1/2, some 10, false⟩
    ∧ order_z (setZOrder (order_z (setZOrder ⟨10, 0, none, false⟩ (1/2))) (4/5)) =
        ⟨54/5, 4/5, some 10, false⟩ := by
  refine ⟨?_, ?_, ?_, ?_, ?_⟩
  · intro e hch hun
    simp [order_z, hch, hun]
  · intro e b hch hun
    simp [order_z, hch, hun]
  · intro e v
    rcases e with ⟨z, zo, uo, ch⟩
    cases uo <;> simp [order_z, setZOrder]
  · simp [order_z, setZOrder]
    norm_num
  · simp [order_z, setZOrder]
    norm_num

/-- Witness for C9 at concrete inputs: the first observation captures base
`7` and sets `z = 9`; with base `4` stored a change to `ZOrder 3` sets
`z = 7` without re-capturing. -/
theorem order_z_spec_witness :
    order_z ⟨7, 2, none, true⟩ = ⟨9, 2, some 7, false⟩
    ∧ order_z ⟨0, 3, some 4, true⟩ = ⟨7, 3, some 4, false⟩ := by
  constructor
  · have h := order_z_spec.1 ⟨7, 2, none, true⟩ rfl rfl
    rw [h]
    norm_num
  · have h := order_z_spec.2.1 ⟨0, 3, some 4, true⟩ 4 rfl rfl
    rw [h]
    norm_num

/-- Claim C10, confirmed. `AddTraumaCommand::apply` walks every entity
carrying a `Shake` component in the world and updates each one's trauma
independently by `clamp(trauma + amount, 0, 1)` — a single application
affecting all shake entities, not one targeted entity. -/
theorem add_trauma_command_all_entities (amount : ℚ) (l : List ShakeEntity) :
    addTraumaCommand amount l =
      l.map (fun e =>
        { e with shake :=
            { e.shake with
              trauma := min (max (e.shake.trauma + amount) 0) 1 } }) := by
  induction l with
  | nil => rfl
  | cons e rest ih => simp [addTraumaCommand, Shake.add_trauma, ih]

end BevyOptix
